import Mathlib

/-!
Verification of the observation-capture and session-lifecycle pipeline.

Shallow embedding of the Python hooks in this repository:

* `src/skills/continuous-learning-v2/hooks/observe.py` (observation log,
  rotation/archival),
* `src/scripts/lib/utils.py` (`get_session_id_short`, `find_files`),
* `src/scripts/hooks/session_end.py`, `pre_compact.py`, `suggest_compact.py`
  (session state tracker),
* `src/skills/continuous-learning/evaluate_session.py` (evaluation gate).

File contents are modelled as explicit values (`Option String` for a file
that may be absent, lists of lines for append-only logs); each entry point
becomes a pure state transformer.  Python library calls (`json.loads`,
`json.dumps`, `str.strip`, `str.count`, `int`) are modelled by Lean
functions that are faithful on the inputs the hooks handle, with deviations
noted in doc comments.
-/

namespace S2P

/-- The ASCII whitespace characters stripped by Python `str.strip()`.
(Python also strips non-ASCII Unicode whitespace; the hooks only ever meet
ASCII input, and restricting the model makes every theorem about
"whitespace-only" input a statement about these characters.) -/
def pyIsSpace (c : Char) : Bool :=
  c = ' ' || c = '\t' || c = '\n' || c = '\x0d' || c = '\x0b' || c = '\x0c'

/-- Python `s.strip()`: drop leading and trailing whitespace. -/
def pyStrip (s : String) : String :=
  ⟨((s.data.dropWhile pyIsSpace).reverse.dropWhile pyIsSpace).reverse⟩

/-- Scan step of Python `hay.count(needle)` for a nonempty needle: count
non-overlapping occurrences left to right.  Structural on a fuel that
bounds the number of scan steps; each step consumes at least one
character, so `hay.length` fuel is enough. -/
def pyCountAux (needle : List Char) : Nat → List Char → Nat
  | 0, _ => 0
  | _ + 1, [] => 0
  | fuel + 1, c :: rest =>
    if needle.isPrefixOf (c :: rest) then
      1 + pyCountAux needle fuel ((c :: rest).drop needle.length)
    else
      pyCountAux needle fuel rest

/-- Python `hay.count(needle)` on lists of characters: number of
non-overlapping occurrences, scanning left to right.  Python returns
`len + 1` for an empty needle. -/
def pyCountList (needle hay : List Char) : Nat :=
  if needle = [] then hay.length + 1 else pyCountAux needle hay.length hay

/-- Python `hay.count(needle)` on strings. -/
def pyCount (needle hay : String) : Nat :=
  pyCountList needle.data hay.data

/-- Contiguous-sublist test: does `needle` occur inside `hay`? -/
def listIsSubstring (needle : List Char) : List Char → Bool
  | [] => decide (needle = [])
  | c :: rest => needle.isPrefixOf (c :: rest) || listIsSubstring needle rest

/-- Python `needle in hay` for strings: substring containment. -/
def pyInStr (needle hay : String) : Bool :=
  listIsSubstring needle.data hay.data

/-- Python `s[:n]`: the first `n` characters of `s` (code points, as in
Python), or all of `s` when it is shorter than `n`. -/
def pySliceFirst (n : Nat) (s : String) : String :=
  ⟨s.data.take n⟩

/-- Python `s[-n:]`: the last `n` characters of `s`, or all of `s` when it
is shorter than `n`. -/
def pySliceLast (n : Nat) (s : String) : String :=
  ⟨s.data.drop (s.data.length - n)⟩

/-- `get_session_id_short` from `src/scripts/lib/utils.py` (the copy in
`src/scripts/hooks/session_end.py` is identical in behaviour).  The
environment variable `CLAUDE_SESSION_ID` is modelled as `Option String`
(`none` = unset); `os.environ.get(_, "")` followed by the falsiness test
`if not session_id` sends both `none` and the empty string to the
fallback, and every other value to its last 8 characters. -/
def get_session_id_short (env : Option String) (fallback : String := "default") : String :=
  let session_id := env.getD ""
  if session_id = "" then fallback
  else pySliceLast 8 session_id

/-! ## Evaluation gate (`src/skills/continuous-learning/evaluate_session.py`) -/

/-- `count_messages` over the text of an existing, readable transcript:
the sum of the non-overlapping occurrence counts of the user-message
marker in its two textual encodings (with and without a space after the
colon).  A missing or unreadable transcript returns 0 in the source; the
entry point exits before counting in that case. -/
def count_messages (content : String) : Nat :=
  pyCount "\"type\":\"user\"" content + pyCount "\"type\": \"user\"" content

/-- `config.get("min_session_length", 10)` in `evaluate_session.py` `main`:
the threshold with its hardcoded default of 10. -/
def minSessionLength (config : Option Nat) : Nat :=
  config.getD 10

/-- The decision part of `evaluate_session.py` `main` (lines 78–97) for an
existing transcript: count messages, then either skip (`none`) or signal
that evaluation is warranted, emitting the learned-skills destination
path (`some learnedPath`). -/
def evaluationGate (minLen : Nat) (learnedPath : String) (content : String) : Option String :=
  if count_messages content < minLen then none else some learnedPath

/-! ## Rotation / archiver (`observe.py`) -/

/-- The slice of the filesystem touched by `observe.py`: the disable
sentinel, the active observations log (`none` = file absent, otherwise
its appended lines), and the contents of the archived logs, in the order
they were archived. -/
structure ObsFS where
  disabled : Bool
  log : Option (List String)
  archive : List (List String)
deriving DecidableEq

/-- Byte size of the active log: each appended line is its UTF-8 encoding
followed by one newline byte. -/
def logBytes (lines : List String) : Nat :=
  (lines.map (fun l => l.utf8ByteSize + 1)).sum

/-- The size test of `archive_if_needed` (observe.py lines 34–35):
`size / (1024 * 1024) >= max_size_mb`.  The Python float division by 2^20
is exact for every file size below 2^53 bytes, so it is modelled as exact
rational division. -/
def rotationDecision (sizeBytes : Nat) (max_size_mb : Nat) : Bool :=
  decide ((max_size_mb : ℚ) ≤ (sizeBytes : ℚ) / (1024 * 1024))

/-- `archive_if_needed` from `observe.py`: no-op when the log file is
absent; otherwise, when the size test passes, the log file is renamed
into the archive directory (modelled as moving its contents onto the end
of the archive list, leaving the active path absent).  OS errors, which
the source swallows, are not modelled. -/
def archive_if_needed (st : ObsFS) (max_size_mb : Nat := 10) : ObsFS :=
  match st.log with
  | none => st
  | some lines =>
    if rotationDecision (logBytes lines) max_size_mb then
      { st with log := none, archive := st.archive ++ [lines] }
    else st

/-! ## Strategic compact suggester (`src/scripts/hooks/suggest_compact.py`) -/

/-- Digit part of Python `int(s)` after the optional sign: a nonempty
digit string in which a single underscore may separate two digits.
Structural on a fuel that bounds the number of steps, each of which
consumes at least one character. -/
def pyIntDigitsAux : Nat → List Char → Nat → Option Nat
  | 0, _, _ => none
  | _ + 1, [], acc => some acc
  | fuel + 1, '_' :: rest, acc =>
    match rest with
    | [] => none
    | c :: rest2 =>
      if c.isDigit then pyIntDigitsAux fuel rest2 (acc * 10 + (c.toNat - 48)) else none
  | fuel + 1, c :: rest, acc =>
    if c.isDigit then pyIntDigitsAux fuel rest (acc * 10 + (c.toNat - 48)) else none

/-- Nonempty digit run starting the numeral. -/
def pyIntDigits : List Char → Option Nat
  | [] => none
  | c :: rest =>
    if c.isDigit then pyIntDigitsAux (rest.length + 1) rest (c.toNat - 48) else none

/-- Python `int(s)` for a decimal string literal: surrounding whitespace
is ignored, an optional sign precedes the digits; `none` models the
`ValueError` raised on anything else. -/
def pyInt (s : String) : Option Int :=
  let cs := ((s.data.dropWhile pyIsSpace).reverse.dropWhile pyIsSpace).reverse
  match cs with
  | '+' :: rest => (pyIntDigits rest).map Int.ofNat
  | '-' :: rest => (pyIntDigits rest).map (fun n => -(n : Int))
  | rest => (pyIntDigits rest).map Int.ofNat

/-- `int(os.environ.get("COMPACT_THRESHOLD", "50"))` in
`suggest_compact.py` line 26: the environment variable is modelled as
`Option String` (`none` = unset); `none` in the result models the
`ValueError` raised on an invalid value. -/
def compactThreshold (env : Option String) : Option Int :=
  pyInt (env.getD "50")

/-- Counter update and advisory messages of `suggest_compact.py` `main`
(lines 28–46), given a threshold that was computed without error: reads
the counter file (`none` = absent; an unparsable value restarts at 1),
writes back the incremented count, and prints the advisory lines. -/
def suggestBody (threshold : Int) (counter : Option String) : Int × List String :=
  let count : Int :=
    match counter with
    | none => 1
    | some text =>
      match pyInt (pyStrip text) with
      | some n => n + 1
      | none => 1
  let atThreshold :=
    if count = threshold then
      ["[StrategicCompact] " ++ toString threshold ++
        " tool calls reached - consider /compact if transitioning phases"]
    else []
  let checkpoint :=
    if count > threshold ∧ count % 25 = 0 then
      ["[StrategicCompact] " ++ toString count ++
        " tool calls - good checkpoint for /compact if context is stale"]
    else []
  (count, atThreshold ++ checkpoint)

/-- `suggest_compact.py` `main` as a whole: the threshold is computed
first (line 26); a `ValueError` there escapes to the `__main__` handler,
which only prints a diagnostic — no counter update and no suggestion
happen (`Except.error`).  Otherwise the body runs, returning the counter
value written back and the advisory messages. -/
def suggest_compact_main (env : Option String) (counter : Option String) :
    Except String (Int × List String) :=
  match compactThreshold env with
  | none => Except.error "ValueError"
  | some t => Except.ok (suggestBody t counter)

/-! ## Temporal file index (`find_files` in `src/scripts/lib/utils.py`) -/

/-- A plain file in the scanned directory: name and modification time
(seconds since the epoch, as a rational). -/
structure FileEntry where
  name : String
  mtime : ℚ
deriving DecidableEq

/-- Matching step for the glob regex, structural on a fuel that bounds
the number of steps; every step shortens the pattern or the candidate
name, so `pattern.length + name.length + 1` fuel is enough. -/
def globMatchAux : Nat → List Char → List Char → Bool
  | 0, _, _ => false
  | _ + 1, [], [] => true
  | _ + 1, [], _ :: _ => false
  | fuel + 1, p :: ps, s =>
    if p = '*' then
      globMatchAux fuel ps s ||
        (match s with
         | [] => false
         | _ :: s2 => globMatchAux fuel (p :: ps) s2)
    else
      match s with
      | [] => false
      | c :: s2 => (p = '?' || p = c) && globMatchAux fuel ps s2

/-- Matching semantics of the anchored regex that `find_files` builds
from its glob pattern (`.` escaped, `*` → `.*`, `?` → `.`), for patterns
made of literal characters and the wildcards `*` and `?` — the only
patterns the repository uses. -/
def globMatch (p s : List Char) : Bool :=
  globMatchAux (p.length + s.length + 1) p s

/-- Key order of `results.sort(key=mtime, reverse=True)`: descending by
modification time. -/
def mtimeGe (a b : FileEntry) : Prop := b.mtime ≤ a.mtime

instance : DecidableRel mtimeGe :=
  fun a b => inferInstanceAs (Decidable (b.mtime ≤ a.mtime))

instance : IsTotal FileEntry mtimeGe := ⟨fun a b => le_total b.mtime a.mtime⟩

instance : IsTrans FileEntry mtimeGe := ⟨fun _ _ _ h1 h2 => le_trans h2 h1⟩

/-- `find_files` (non-recursive case) over the plain files of a directory:
keep the entries whose name matches the pattern and, when `max_age_days`
is supplied, whose age in days does not exceed it (`continue` on
`age_days > max_age_days`), then sort newest-first.  The Python sort is
stable; insertion sort over the total transitive relation `mtimeGe` is
the same stable descending order. -/
def find_files (entries : List FileEntry) (pattern : String)
    (max_age_days : Option ℚ) (now : ℚ) : List FileEntry :=
  let kept := entries.filter fun e =>
    globMatch pattern.data e.name.data &&
      (match max_age_days with
       | none => true
       | some m => !decide ((now - e.mtime) / (60 * 60 * 24) > m))
  List.insertionSort mtimeGe kept


/-! ## JSON values — models of the Python `json` library calls -/

mutual

/-- JSON values as handled by `json.loads` / `json.dumps` on the hook
inputs.  Numbers are modelled as integers: no field of the hook protocol
is ever a fractional number.  Arrays and objects are mutual inductives
(rather than `List`-valued fields) so that every function on them is
plain structural recursion. -/
inductive JVal where
  | null : JVal
  | bool : Bool → JVal
  | num : Int → JVal
  | str : String → JVal
  | arr : JArr → JVal
  | obj : JObj → JVal

/-- Items of a JSON array, in order. -/
inductive JArr where
  | nil : JArr
  | cons : JVal → JArr → JArr

/-- Members of a JSON object: key–value pairs in insertion order. -/
inductive JObj where
  | nil : JObj
  | cons : String → JVal → JObj → JObj

end

/-- Append one item at the end of an array. -/
def JArr.snoc : JArr → JVal → JArr
  | .nil, v => .cons v .nil
  | .cons a rest, v => .cons a (JArr.snoc rest v)

/-- Append one member at the end of an object. -/
def JObj.snoc : JObj → String → JVal → JObj
  | .nil, k, v => .cons k v .nil
  | .cons k0 v0 rest, k, v => .cons k0 v0 (JObj.snoc rest k v)

/-- Lower-case hexadecimal digit. -/
def hexDigit (n : Nat) : Char :=
  if n < 10 then Char.ofNat (48 + n) else Char.ofNat (87 + n)

/-- `\uXXXX` escape for a code point. -/
def uEscape (n : Nat) : List Char :=
  ['\\', 'u', hexDigit (n / 4096 % 16), hexDigit (n / 256 % 16),
    hexDigit (n / 16 % 16), hexDigit (n % 16)]

/-- `json.dumps` escaping of one character (default `ensure_ascii=True`):
quote and backslash escaped, the common control characters by their short
escapes, every other control or non-ASCII character by `\uXXXX`
(characters beyond the basic multilingual plane, which Python renders as
surrogate pairs, do not occur in the modelled inputs). -/
def jsonEscapeChar (c : Char) : List Char :=
  if c = '"' then ['\\', '"']
  else if c = '\\' then ['\\', '\\']
  else if c = '\n' then ['\\', 'n']
  else if c = '\t' then ['\\', 't']
  else if c = '\x0d' then ['\\', 'r']
  else if c = '\x08' then ['\\', 'b']
  else if c = '\x0c' then ['\\', 'f']
  else if c.toNat < 32 ∨ c.toNat > 126 then uEscape c.toNat
  else [c]

/-- `json.dumps` escaping of a string body. -/
def jsonEscape (s : String) : String :=
  ⟨(s.data.map jsonEscapeChar).flatten⟩

mutual

/-- `json.dumps` with its default separators: `", "` between items,
`": "` between key and value. -/
def jsonDumps : JVal → String
  | .null => "null"
  | .bool true => "true"
  | .bool false => "false"
  | .num n => toString n
  | .str s => "\"" ++ jsonEscape s ++ "\""
  | .arr l => "[" ++ jsonDumpsArr l ++ "]"
  | .obj kvs => "\x7b" ++ jsonDumpsObj kvs ++ "\x7d"

/-- Array items of `json.dumps`. -/
def jsonDumpsArr : JArr → String
  | .nil => ""
  | .cons v .nil => jsonDumps v
  | .cons v rest => jsonDumps v ++ ", " ++ jsonDumpsArr rest

/-- Object members of `json.dumps`. -/
def jsonDumpsObj : JObj → String
  | .nil => ""
  | .cons k v .nil => "\"" ++ jsonEscape k ++ "\": " ++ jsonDumps v
  | .cons k v rest =>
    "\"" ++ jsonEscape k ++ "\": " ++ jsonDumps v ++ ", " ++ jsonDumpsObj rest

end

/-- A single-quote character, kept out of string literals. -/
def singleQuote : String := String.singleton (Char.ofNat 39)

mutual

/-- Python `repr` of a JSON-derived value, as `str` renders lists and
dicts.  String escaping inside `repr` is not modelled: the entry points
only reach this rendering for values without quote characters. -/
def pyRepr : JVal → String
  | .null => "None"
  | .bool true => "True"
  | .bool false => "False"
  | .num n => toString n
  | .str s => singleQuote ++ s ++ singleQuote
  | .arr l => "[" ++ pyReprArr l ++ "]"
  | .obj kvs => "\x7b" ++ pyReprObj kvs ++ "\x7d"

/-- List items of Python `repr`. -/
def pyReprArr : JArr → String
  | .nil => ""
  | .cons v .nil => pyRepr v
  | .cons v rest => pyRepr v ++ ", " ++ pyReprArr rest

/-- Dict members of Python `repr`. -/
def pyReprObj : JObj → String
  | .nil => ""
  | .cons k v .nil => singleQuote ++ k ++ singleQuote ++ ": " ++ pyRepr v
  | .cons k v rest =>
    singleQuote ++ k ++ singleQuote ++ ": " ++ pyRepr v ++ ", " ++ pyReprObj rest

end

/-- Python `str` of a JSON-derived value: the string itself for a string,
`repr`-style rendering for everything else. -/
def pyStr : JVal → String
  | .str s => s
  | v => pyRepr v

/-- Python `x == s` for a string literal `s`: true exactly on the equal
string (no other JSON-derived value compares equal to a string). -/
def pyEqStr (v : JVal) (s : String) : Bool :=
  match v with
  | .str t => t = s
  | _ => false

/-- Does any item of the array equal the given string (Python `==`)? -/
def jarrAnyEqStr : JArr → String → Bool
  | .nil, _ => false
  | .cons v rest, s => pyEqStr v s || jarrAnyEqStr rest s

/-- Does the object have the given key? -/
def jobjHasKey : JObj → String → Bool
  | .nil, _ => false
  | .cons k _ rest, key => decide (k = key) || jobjHasKey rest key

/-- Python `needle in x` for a string needle and a JSON-derived `x`:
substring test on a string, element membership on a list, key membership
on a dict, and a `TypeError` (`Except.error`) on the other types. -/
def pyIn (needle : String) : JVal → Except String Bool
  | .str s => .ok (pyInStr needle s)
  | .arr l => .ok (jarrAnyEqStr l needle)
  | .obj kvs => .ok (jobjHasKey kvs needle)
  | _ => .error "TypeError"

/-- Python `data.get(key, default)` on a parsed JSON object, where a
duplicated key keeps its last occurrence (as `json.loads` does): walk the
members in order, carrying the best match so far. -/
def dictGet : JObj → String → JVal → JVal
  | .nil, _, default => default
  | .cons k v rest, key, default =>
    dictGet rest key (if k = key then v else default)

/-! ### A parser modelling `json.loads`

Faithful on the hook protocol: objects, arrays, strings with the standard
escapes, integers, `true`/`false`/`null`, strict about control characters
in strings and about trailing garbage; `none` models
`json.JSONDecodeError`.  (Fractional numbers and the leading-zero
restriction are not modelled; no claim depends on them.) -/

/-- JSON insignificant whitespace. -/
def jsonWs (c : Char) : Bool :=
  c = ' ' || c = '\t' || c = '\n' || c = '\x0d'

/-- Value of one hexadecimal digit. -/
def hexVal (c : Char) : Option Nat :=
  if c.isDigit then some (c.toNat - 48)
  else if 'a' ≤ c ∧ c ≤ 'f' then some (c.toNat - 87)
  else if 'A' ≤ c ∧ c ≤ 'F' then some (c.toNat - 55)
  else none

/-- String body parser, after the opening quote: returns the decoded
string and the input after the closing quote.  Structural on a fuel that
bounds the number of steps, each of which consumes at least one
character. -/
def parseJStringAux : Nat → List Char → List Char → Option (String × List Char)
  | 0, _, _ => none
  | _ + 1, [], _ => none
  | fuel + 1, c :: rest, acc =>
    if c = '"' then some (⟨acc.reverse⟩, rest)
    else if c = '\\' then
      match rest with
      | [] => none
      | e :: rest2 =>
        if e = '"' then parseJStringAux fuel rest2 ('"' :: acc)
        else if e = '\\' then parseJStringAux fuel rest2 ('\\' :: acc)
        else if e = '/' then parseJStringAux fuel rest2 ('/' :: acc)
        else if e = 'n' then parseJStringAux fuel rest2 ('\n' :: acc)
        else if e = 't' then parseJStringAux fuel rest2 ('\t' :: acc)
        else if e = 'r' then parseJStringAux fuel rest2 ('\x0d' :: acc)
        else if e = 'b' then parseJStringAux fuel rest2 ('\x08' :: acc)
        else if e = 'f' then parseJStringAux fuel rest2 ('\x0c' :: acc)
        else if e = 'u' then
          match rest2 with
          | h1 :: h2 :: h3 :: h4 :: rest3 =>
            match hexVal h1, hexVal h2, hexVal h3, hexVal h4 with
            | some a, some b, some c2, some d =>
              parseJStringAux fuel rest3
                (Char.ofNat (a * 4096 + b * 256 + c2 * 16 + d) :: acc)
            | _, _, _, _ => none
          | _ => none
        else none
    else if c.toNat < 32 then none
    else parseJStringAux fuel rest (c :: acc)

/-- String body parser with enough fuel for its input. -/
def parseJString (cs : List Char) (acc : List Char) : Option (String × List Char) :=
  parseJStringAux (cs.length + 1) cs acc

/-- Natural number from a digit run. -/
def natOfDigits (cs : List Char) : Nat :=
  cs.foldl (fun a c => a * 10 + (c.toNat - 48)) 0

/-- Integer literal parser (JSON numbers restricted to integers). -/
def parseJNum (s : List Char) : Option (Int × List Char) :=
  let signAndBody : Bool × List Char :=
    match s with
    | '-' :: rest => (true, rest)
    | rest => (false, rest)
  let digits := signAndBody.2.takeWhile Char.isDigit
  let rest := signAndBody.2.dropWhile Char.isDigit
  if digits = [] then none
  else
    let n : Int := natOfDigits digits
    some (if signAndBody.1 then -n else n, rest)

mutual

/-- One JSON value, with `fuel` bounding the nesting depth; the brackets
of each nesting level consume input, so `length + 1` fuel is enough. -/
def parseJVal : Nat → List Char → Option (JVal × List Char)
  | 0, _ => none
  | fuel + 1, s0 =>
    match s0.dropWhile jsonWs with
    | [] => none
    | c :: rest =>
      if c = '\x7b' then
        match rest.dropWhile jsonWs with
        | '\x7d' :: rest2 => some (.obj .nil, rest2)
        | _ => parseJMembers fuel rest .nil
      else if c = '[' then
        match rest.dropWhile jsonWs with
        | ']' :: rest2 => some (.arr .nil, rest2)
        | _ => parseJItems fuel rest .nil
      else if c = '"' then
        (parseJString rest []).map (fun p => (.str p.1, p.2))
      else if c = 't' then
        match rest with
        | 'r' :: 'u' :: 'e' :: rest2 => some (.bool true, rest2)
        | _ => none
      else if c = 'f' then
        match rest with
        | 'a' :: 'l' :: 's' :: 'e' :: rest2 => some (.bool false, rest2)
        | _ => none
      else if c = 'n' then
        match rest with
        | 'u' :: 'l' :: 'l' :: rest2 => some (.null, rest2)
        | _ => none
      else
        (parseJNum (c :: rest)).map (fun p => (.num p.1, p.2))
termination_by structural fuel _ => fuel

/-- Members of a nonempty object, after the opening brace. -/
def parseJMembers : Nat → List Char → JObj → Option (JVal × List Char)
  | 0, _, _ => none
  | fuel + 1, s, acc =>
    match s.dropWhile jsonWs with
    | '"' :: rest =>
      match parseJString rest [] with
      | none => none
      | some (key, rest2) =>
        match rest2.dropWhile jsonWs with
        | ':' :: rest3 =>
          match parseJVal fuel rest3 with
          | none => none
          | some (v, rest4) =>
            match rest4.dropWhile jsonWs with
            | ',' :: rest5 => parseJMembers fuel rest5 (acc.snoc key v)
            | '\x7d' :: rest5 => some (.obj (acc.snoc key v), rest5)
            | _ => none
        | _ => none
    | _ => none
termination_by structural fuel _ _ => fuel

/-- Items of a nonempty array, after the opening bracket. -/
def parseJItems : Nat → List Char → JArr → Option (JVal × List Char)
  | 0, _, _ => none
  | fuel + 1, s, acc =>
    match parseJVal fuel s with
    | none => none
    | some (v, rest) =>
      match rest.dropWhile jsonWs with
      | ',' :: rest2 => parseJItems fuel rest2 (acc.snoc v)
      | ']' :: rest2 => some (.arr (acc.snoc v), rest2)
      | _ => none
termination_by structural fuel _ _ => fuel

end

/-- Models `json.loads`: parse one JSON document and require only
whitespace after it. -/
def jsonLoads (s : String) : Option JVal :=
  match parseJVal (s.length + 1) s.data with
  | some (v, rest) => if rest.dropWhile jsonWs = [] then some v else none
  | none => none

/-! ## Observation capture (`observe.py`) -/

/-- Result of `parse_hook_input`: either the parsed-event dict
(`parsed: True`, with its `event`, `tool`, `input`, `output`, `session`
fields) or the error dict (`parsed: False`, with the exception text). -/
inductive ParseResult where
  | ok (event : String) (tool : JVal) (inputStr outputStr : Option String)
      (session : JVal) : ParseResult
  | err (msg : String) : ParseResult

/-- The serialized, truncated representation of a tool payload
(observe.py lines 59–67): `json.dumps` for a dict, Python `str` for
anything else, truncated to the first 5000 characters. -/
def serializeTrunc (v : JVal) : String :=
  pySliceFirst 5000
    (match v with
     | .obj _ => jsonDumps v
     | _ => pyStr v)

/-- `parse_hook_input` from observe.py.  The `try` body runs
`json.loads`, extracts the fields through their aliases, truncates the
payloads, and classifies the event by `"Pre" in hook_type`; any exception
(`JSONDecodeError` from a malformed document, `AttributeError` from
`.get` on a non-dict, `TypeError` from `in` on an unsuitable
`hook_type`) is caught and becomes the `parsed: False` dict. -/
def parse_hook_input (input_json : String) : ParseResult :=
  match jsonLoads input_json with
  | none => .err "JSONDecodeError"
  | some data =>
    match data with
    | .obj kvs =>
      let hook_type := dictGet kvs "hook_type" (.str "unknown")
      let tool_name := dictGet kvs "tool_name" (dictGet kvs "tool" (.str "unknown"))
      let tool_input := dictGet kvs "tool_input" (dictGet kvs "input" (.obj .nil))
      let tool_output := dictGet kvs "tool_output" (dictGet kvs "output" (.str ""))
      let session_id := dictGet kvs "session_id" (.str "unknown")
      let tool_input_str := serializeTrunc tool_input
      let tool_output_str := serializeTrunc tool_output
      match pyIn "Pre" hook_type with
      | .error e => .err e
      | .ok isPre =>
        let event := if isPre then "tool_start" else "tool_complete"
        .ok event tool_name
          (if event = "tool_start" then some tool_input_str else none)
          (if event = "tool_complete" then some tool_output_str else none)
          session_id
    | _ => .err "AttributeError"

/-- The observation dict built in `main` (observe.py lines 131–142):
keys in insertion order `timestamp, event, tool, session`, then `input`
and `output` added only when truthy — a `None` or empty-string field is
skipped by `if parsed.get("input"):`. -/
def buildObservation (timestamp event : String) (tool : JVal)
    (inputStr outputStr : Option String) (session : JVal) : JObj :=
  let base : JObj :=
    .cons "timestamp" (.str timestamp)
      (.cons "event" (.str event)
        (.cons "tool" tool
          (.cons "session" session .nil)))
  let withInput :=
    match inputStr with
    | some s => if s = "" then base else base.snoc "input" (.str s)
    | none => base
  match outputStr with
  | some s => if s = "" then withInput else withInput.snoc "output" (.str s)
  | none => withInput

/-- The parse-error observation (observe.py lines 120–124): timestamp,
the `parse_error` event, and the first 1000 characters of the raw
input. -/
def parseErrorRecord (timestamp raw : String) : JObj :=
  .cons "timestamp" (.str timestamp)
    (.cons "event" (.str "parse_error")
      (.cons "raw" (.str (pySliceFirst 1000 raw)) .nil))

/-- One externally visible action of an `observe.py` invocation, in
execution order: the rotation pre-check, or the append of one
observation record. -/
inductive Step where
  | archiveCheck : Step
  | append (record : JObj) : Step

/-- `write_observation`: serialize the record as one JSON line and append
it to the active log, creating the file (and parent directories) when
absent. -/
def write_observation (record : JObj) (st : ObsFS) : ObsFS :=
  { st with log := some ((st.log.getD []) ++ [jsonDumps (.obj record)]) }

/-- `main` of observe.py as a state transformer, also returning the
trace of rotation checks and appends in execution order.  `ts` is the
UTC timestamp string; stdin is modelled as the given string (a failed
read exits silently, like whitespace-only input). -/
def observeMain (ts stdin : String) (st : ObsFS) : ObsFS × List Step :=
  if st.disabled then (st, [])
  else if pyStrip stdin = "" then (st, [])
  else
    match parse_hook_input stdin with
    | .err _ =>
      let record := parseErrorRecord ts stdin
      (write_observation record st, [Step.append record])
    | .ok event tool inputStr outputStr session =>
      let st1 := archive_if_needed st
      let record := buildObservation ts event tool inputStr outputStr session
      (write_observation record st1, [Step.archiveCheck, Step.append record])

/-! ## Session state tracker (`session_end.py`, `pre_compact.py`) -/

/-- Filesystem slice touched by session_end.py: the current day+session
marker file and the metadata file for the same day and session id
(`none` = absent). -/
structure SessionEndFS where
  marker : Option String
  metadata : Option String
deriving DecidableEq

/-- The end-marker line appended at session end (session_end.py
line 49). -/
def sessionEndLine (timeStr : String) : String :=
  "\n---\n**[Session ended at " ++ timeStr ++ "]**\n"

/-- `json.dumps(metadata, indent=2)` for the metadata dict written at
session end (line 59), three keys in insertion order. -/
def sessionMetadataJson (session_id ended_at cwd : String) : String :=
  "\x7b\n  \"session_id\": \"" ++ jsonEscape session_id ++
    "\",\n  \"ended_at\": \"" ++ jsonEscape ended_at ++
    "\",\n  \"cwd\": \"" ++ jsonEscape cwd ++ "\"\n\x7d"

/-- `main` of session_end.py on the files it touches: append the end
marker to the marker file only if that file exists, then unconditionally
write (overwriting) the metadata record. -/
def session_end_main (timeStr session_id ended_at cwd : String)
    (st : SessionEndFS) : SessionEndFS :=
  let st1 :=
    match st.marker with
    | some content => { st with marker := some (content ++ sessionEndLine timeStr) }
    | none => st
  { st1 with metadata := some (sessionMetadataJson session_id ended_at cwd) }

/-- A file of the sessions directory as pre_compact.py sees it: name,
modification time, text content.  Names within one directory are
distinct. -/
structure MarkerFile where
  name : String
  mtime : ℚ
  content : String
deriving DecidableEq

/-- Key order of `sorted(sessions, key=mtime, reverse=True)` on marker
files. -/
def markerMtimeGe (a b : MarkerFile) : Prop := b.mtime ≤ a.mtime

instance : DecidableRel markerMtimeGe :=
  fun a b => inferInstanceAs (Decidable (b.mtime ≤ a.mtime))

instance : IsTotal MarkerFile markerMtimeGe := ⟨fun a b => le_total b.mtime a.mtime⟩

instance : IsTrans MarkerFile markerMtimeGe := ⟨fun _ _ _ h1 h2 => le_trans h2 h1⟩

/-- Filesystem slice touched by pre_compact.py: the compaction log
(lines, `[]` also standing for an absent file that the first append
creates) and the files of the sessions directory. -/
structure PreCompactFS where
  compactionLog : List String
  files : List MarkerFile
deriving DecidableEq

/-- The compaction-log line (pre_compact.py line 35). -/
def compactionLogLine (timestamp : String) : String :=
  "[" ++ timestamp ++ "] Context compaction triggered"

/-- The annotation appended to a session marker (line 48). -/
def compactionNote (timeStr : String) : String :=
  "\n---\n**[Compaction occurred at " ++ timeStr ++ "]** - Context was summarized\n"

/-- `sorted(sessions_dir.glob("*-session.tmp"), key=mtime, reverse=True)`
(pre_compact.py lines 38–42): `pathlib` glob matching coincides with the
regex semantics of `globMatch` on this pattern; the stable
descending Python sort is the stable insertion sort over `markerMtimeGe`. -/
def sessionMarkers (files : List MarkerFile) : List MarkerFile :=
  List.insertionSort markerMtimeGe
    (files.filter (fun f => globMatch "*-session.tmp".data f.name.data))

/-- `main` of pre_compact.py: always append one line to the compaction
log; then, if any `*-session.tmp` file exists, append the compaction
note to the most recently modified one (file names are unique within the
directory, so updating by name models the in-place append of the source). -/
def pre_compact_main (timestamp timeStr : String) (st : PreCompactFS) : PreCompactFS :=
  let st1 :=
    { st with compactionLog := st.compactionLog ++ [compactionLogLine timestamp] }
  match sessionMarkers st.files with
  | [] => st1
  | top :: _ =>
    { st1 with files := st1.files.map fun f =>
        if f.name = top.name then
          { f with content := f.content ++ compactionNote timeStr }
        else f }


/-! ## Helper lemmas -/

/-- The float comparison of `archive_if_needed` is the integer comparison
`size ≥ max_size_mb * 2^20`. -/
theorem rotationDecision_eq (size max_size_mb : Nat) :
    rotationDecision size max_size_mb = decide (max_size_mb * 1048576 ≤ size) := by
  unfold rotationDecision
  rw [decide_eq_decide]
  rw [le_div_iff₀ (by norm_num : (0 : ℚ) < 1024 * 1024)]
  have hcast : ((max_size_mb * 1048576 : Nat) : ℚ) = (max_size_mb : ℚ) * (1024 * 1024) := by
    push_cast
    ring
  rw [← hcast, Nat.cast_le]

/-! ## Theorems for the claims -/

/-- C2: for every existing log file, `archive_if_needed` renames it into
the archive if and only if its size in megabytes is at least
`max_size_mb` — a file of exactly `max_size_mb * 2^20` bytes triggers
rotation, one byte below does not — and when the log file does not exist
the operation changes nothing. -/
theorem archive_if_needed_boundary (disabled : Bool) (log : Option (List String))
    (archive : List (List String)) (max_size_mb : Nat) :
    archive_if_needed ⟨disabled, log, archive⟩ max_size_mb =
      match log with
      | none => ⟨disabled, log, archive⟩
      | some l =>
        if max_size_mb * 1048576 ≤ logBytes l then
          ⟨disabled, none, archive ++ [l]⟩
        else ⟨disabled, log, archive⟩ := by
  cases log with
  | none => rfl
  | some l =>
    show (if rotationDecision (logBytes l) max_size_mb then _ else _) = _
    rw [rotationDecision_eq]
    by_cases h : max_size_mb * 1048576 ≤ logBytes l
    · simp [h]
    · simp [h]

/-- C3 counterexample: a non-empty session identifier shorter than 8
characters is returned whole, not replaced by the literal `"default"` as
the claim states. -/
theorem get_session_id_short_counterexample :
    get_session_id_short (some "abc") = "abc" ∧ "abc" ≠ "default" :=
  ⟨rfl, by decide⟩

/-- C3 amended: the derived short identifier is the literal `"default"`
when the identifier is unset or empty, and otherwise the last
`min 8 (length)` characters of the identifier — the whole identifier when
it is shorter than 8 characters, never the fallback. -/
theorem get_session_id_short_amended (s : String) :
    get_session_id_short none = "default" ∧
    get_session_id_short (some "") = "default" ∧
    (s ≠ "" →
      (get_session_id_short (some s)).data = s.data.drop (s.data.length - 8) ∧
      (get_session_id_short (some s)).data.length = min 8 s.data.length ∧
      List.IsSuffix (get_session_id_short (some s)).data s.data) := by
  refine ⟨rfl, rfl, fun hne => ?_⟩
  have hres : get_session_id_short (some s) = pySliceLast 8 s := by
    unfold get_session_id_short
    simp [Option.getD, hne]
  refine ⟨by rw [hres]; rfl, ?_, ?_⟩
  · rw [hres]
    show (s.data.drop (s.data.length - 8)).length = min 8 s.data.length
    rw [List.length_drop]
    omega
  · rw [hres]
    exact List.drop_suffix _ _

/-- C3 witness: a 10-character identifier keeps exactly its last 8
characters, which are a suffix of it. -/
theorem get_session_id_short_witness :
    "abcdefghij" ≠ "" ∧
    (get_session_id_short (some "abcdefghij")).data.length =
      min 8 "abcdefghij".data.length :=
  ⟨by decide, ((get_session_id_short_amended "abcdefghij").2.2 (by decide)).2.1⟩

/-- C4: for an existing transcript the evaluation gate counts the
user-message marker in both encodings (with and without a space after the
colon) and emits the learned-skills destination path exactly when that
count reaches `min_session_length`, whose absent-config default is 10;
below the threshold it skips, emitting no path. -/
theorem evaluation_gate_threshold (minLen : Nat) (path content : String) :
    (evaluationGate minLen path content = some path ↔
      minLen ≤ pyCount "\"type\":\"user\"" content + pyCount "\"type\": \"user\"" content) ∧
    (evaluationGate minLen path content = none ↔
      pyCount "\"type\":\"user\"" content + pyCount "\"type\": \"user\"" content < minLen) ∧
    minSessionLength none = 10 := by
  unfold evaluationGate count_messages minSessionLength
  refine ⟨?_, ?_, rfl⟩ <;>
    by_cases h :
        pyCount "\"type\":\"user\"" content + pyCount "\"type\": \"user\"" content < minLen <;>
      simp [h] <;> omega

/-- C8 counterexample: with `COMPACT_THRESHOLD` set to an invalid value
the invocation aborts with a `ValueError` instead of using the default
threshold of 50 (which, on a counter at 3, would have produced the
successful update to 4). -/
theorem compact_threshold_counterexample :
    suggest_compact_main (some "abc") (some "3") = Except.error "ValueError" ∧
    suggest_compact_main none (some "3") = Except.ok (4, []) :=
  ⟨rfl, rfl⟩

/-- C8 amended: the hardcoded default threshold of 50 is used only when
the environment variable is absent; a present but invalid value raises a
`ValueError` that aborts the check at the top-level handler — no counter
update and no suggestion — rather than falling back to 50. -/
theorem compact_threshold_amended (counter : Option String) (s : String)
    (hbad : pyInt s = none) :
    suggest_compact_main none counter = Except.ok (suggestBody 50 counter) ∧
    suggest_compact_main (some s) counter = Except.error "ValueError" := by
  constructor
  · rfl
  · unfold suggest_compact_main compactThreshold
    simp [Option.getD, hbad]

/-- C8 witness: instantiated at an unset variable and at the invalid
value `"abc"`, with a counter file holding `3`. -/
theorem compact_threshold_witness :
    pyInt "abc" = none ∧
    suggest_compact_main none (some "3") = Except.ok (suggestBody 50 (some "3")) ∧
    suggest_compact_main (some "abc") (some "3") = Except.error "ValueError" :=
  ⟨rfl, (compact_threshold_amended (some "3") "abc" rfl).1,
    (compact_threshold_amended (some "3") "abc" rfl).2⟩

/-- C10: when stdin carries only whitespace (and the disable sentinel is
absent), `observe.py` exits with the filesystem unchanged — no record
appended, no rotation check, the active log byte-for-byte as before. -/
theorem whitespace_stdin_no_effect (ts stdin : String) (st : ObsFS)
    (hd : st.disabled = false) (hs : pyStrip stdin = "") :
    observeMain ts stdin st = (st, []) := by
  unfold observeMain
  simp [hd, hs]

/-- C10 witness: whitespace-only stdin over a populated log leaves the
state untouched and performs no step. -/
theorem whitespace_stdin_no_effect_witness :
    (ObsFS.mk false (some ["x"]) []).disabled = false ∧
    pyStrip " \n\t " = "" ∧
    observeMain "t0" " \n\t " ⟨false, some ["x"], []⟩ = (⟨false, some ["x"], []⟩, []) :=
  ⟨rfl, rfl, whitespace_stdin_no_effect "t0" " \n\t " ⟨false, some ["x"], []⟩ rfl rfl⟩


/-- C6: at session end the end-marker line is appended to the day+session
marker file exactly when that file already exists (never creating it),
while the metadata record is written — overwriting any previous one —
unconditionally. -/
theorem session_end_behavior (timeStr session_id ended_at cwd : String)
    (st : SessionEndFS) :
    ((session_end_main timeStr session_id ended_at cwd st).metadata =
      some (sessionMetadataJson session_id ended_at cwd)) ∧
    (st.marker = none →
      (session_end_main timeStr session_id ended_at cwd st).marker = none) ∧
    (∀ c, st.marker = some c →
      (session_end_main timeStr session_id ended_at cwd st).marker =
        some (c ++ sessionEndLine timeStr)) := by
  unfold session_end_main
  cases h : st.marker with
  | none =>
    refine ⟨rfl, fun _ => h, ?_⟩
    intro c hc
    simp at hc
  | some c0 =>
    refine ⟨rfl, ?_, ?_⟩
    · intro hnone
      simp at hnone
    · intro c hc
      cases hc
      rfl

/-- C6 witness: with an existing marker and a stale metadata file, the
marker gains the end line and the metadata is overwritten; the theorem
applied a second way shows the absent marker stays absent. -/
theorem session_end_behavior_witness :
    (SessionEndFS.mk (some "started") (some "old")).marker = some "started" ∧
    (session_end_main "10:30" "cdef1234" "2026-10-12T10:30:00" "/w"
        ⟨some "started", some "old"⟩).marker =
      some ("started" ++ sessionEndLine "10:30") ∧
    (session_end_main "10:30" "cdef1234" "2026-10-12T10:30:00" "/w"
        ⟨some "started", some "old"⟩).metadata =
      some (sessionMetadataJson "cdef1234" "2026-10-12T10:30:00" "/w") :=
  ⟨rfl,
    (session_end_behavior "10:30" "cdef1234" "2026-10-12T10:30:00" "/w"
        ⟨some "started", some "old"⟩).2.2 "started" rfl,
    (session_end_behavior "10:30" "cdef1234" "2026-10-12T10:30:00" "/w"
        ⟨some "started", some "old"⟩).1⟩

/-- C5: with `max_age_days` supplied, a pattern-matching file is in the
result of `find_files` exactly when its age in days does not exceed the
bound — the boundary is inclusive, an age exactly equal to
`max_age_days` is kept. -/
theorem find_files_age_inclusive (entries : List FileEntry) (e : FileEntry)
    (pattern : String) (m now : ℚ) (hmem : e ∈ entries)
    (hmatch : globMatch pattern.data e.name.data = true) :
    e ∈ find_files entries pattern (some m) now ↔
      (now - e.mtime) / (60 * 60 * 24) ≤ m := by
  unfold find_files
  rw [(List.perm_insertionSort mtimeGe _).mem_iff, List.mem_filter]
  simp [hmem, hmatch, not_lt]

/-- C5 witness: three marker files aged 1, 8 and 30 days against a
7-day bound — the 1-day-old file is kept, and by direct evaluation the
result is exactly that file (scenario 4). -/
theorem find_files_age_inclusive_witness :
    (FileEntry.mk "a-session.tmp" 999913600) ∈
      find_files
        [⟨"a-session.tmp", 999913600⟩, ⟨"b-session.tmp", 999308800⟩,
          ⟨"c-session.tmp", 997408000⟩]
        "*-session.tmp" (some 7) 1000000000 ∧
    find_files
        [⟨"a-session.tmp", 999913600⟩, ⟨"b-session.tmp", 999308800⟩,
          ⟨"c-session.tmp", 997408000⟩]
        "*-session.tmp" (some 7) 1000000000 =
      [⟨"a-session.tmp", 999913600⟩] := by
  constructor
  · exact (find_files_age_inclusive _ ⟨"a-session.tmp", 999913600⟩
      "*-session.tmp" 7 1000000000 (by simp) (by decide)).mpr (by norm_num)
  · norm_num [find_files, List.filter, List.insertionSort, List.orderedInsert,
      mtimeGe]


/-- C7 counterexample: invoked with an empty sessions directory, the
compaction log gains its line but afterwards no marker file exists at
all — in particular no marker of the current day and session received
(or was created for) the compaction annotation, against the unconditional append the claim states. -/
theorem pre_compact_counterexample :
    (pre_compact_main "2026-10-12 11:00:00" "11:00" ⟨[], []⟩).files = [] ∧
    (pre_compact_main "2026-10-12 11:00:00" "11:00" ⟨[], []⟩).compactionLog =
      ["[2026-10-12 11:00:00] Context compaction triggered"] :=
  ⟨rfl, rfl⟩

/-- C7 amended: one line is always appended to the compaction log; the
timestamped annotation goes to the most recently modified
`*-session.tmp` file when at least one exists — whatever day or session
it belongs to — and to no file when none exists. -/
theorem pre_compact_behavior_amended (timestamp timeStr : String) (st : PreCompactFS) :
    ((pre_compact_main timestamp timeStr st).compactionLog =
      st.compactionLog ++ [compactionLogLine timestamp]) ∧
    (sessionMarkers st.files = [] →
      (pre_compact_main timestamp timeStr st).files = st.files) ∧
    (∀ top rest, sessionMarkers st.files = top :: rest →
      top ∈ st.files ∧
      (∀ f ∈ st.files, globMatch "*-session.tmp".data f.name.data = true →
        f.mtime ≤ top.mtime) ∧
      (pre_compact_main timestamp timeStr st).files =
        st.files.map fun f =>
          if f.name = top.name then
            { f with content := f.content ++ compactionNote timeStr }
          else f) := by
  refine ⟨?_, ?_, ?_⟩
  · unfold pre_compact_main
    cases h : sessionMarkers st.files <;> rfl
  · intro h
    unfold pre_compact_main
    rw [h]
  · intro top rest h
    refine ⟨?_, ?_, ?_⟩
    · have hmem : top ∈ sessionMarkers st.files := h ▸ List.mem_cons_self top rest
      unfold sessionMarkers at hmem
      rw [(List.perm_insertionSort markerMtimeGe _).mem_iff] at hmem
      exact (List.mem_filter.mp hmem).1
    · intro f hf hmatch
      have hf2 : f ∈ sessionMarkers st.files := by
        unfold sessionMarkers
        rw [(List.perm_insertionSort markerMtimeGe _).mem_iff, List.mem_filter]
        exact ⟨hf, hmatch⟩
      have hsorted : (sessionMarkers st.files).Sorted markerMtimeGe :=
        List.sorted_insertionSort markerMtimeGe _
      rw [h] at hf2 hsorted
      rcases List.mem_cons.mp hf2 with heq | hmem2
      · exact le_of_eq (congrArg MarkerFile.mtime heq)
      · exact (List.sorted_cons.mp hsorted).1 f hmem2
    · unfold pre_compact_main
      rw [h]

/-- C7 witness: a single stale marker from an old day and session — the
annotation lands on that file (the mtime-maximal one), exercising the
nonempty branch of the amended claim. -/
theorem pre_compact_behavior_witness :
    sessionMarkers [⟨"2020-01-01-aaaa-session.tmp", 5, "started"⟩] =
      [⟨"2020-01-01-aaaa-session.tmp", 5, "started"⟩] ∧
    (pre_compact_main "2026-10-12 11:00:00" "11:00"
        ⟨["old"], [⟨"2020-01-01-aaaa-session.tmp", 5, "started"⟩]⟩).files =
      [⟨"2020-01-01-aaaa-session.tmp", 5,
        "started" ++ compactionNote "11:00"⟩] := by
  refine ⟨by decide, ?_⟩
  have happ := (pre_compact_behavior_amended "2026-10-12 11:00:00" "11:00"
      ⟨["old"], [⟨"2020-01-01-aaaa-session.tmp", 5, "started"⟩]⟩).2.2
      ⟨"2020-01-01-aaaa-session.tmp", 5, "started"⟩ [] (by decide)
  rw [happ.2.2]
  rfl

/-- C1 counterexample: on malformed stdin (`"\x7b"`), the invocation
appends a `parse_error` record with no rotation pre-check anywhere in its
trace, so not every append is preceded by a rotation decision. -/
theorem obs_rotation_order_counterexample :
    (observeMain "2026-10-12T00:00:00Z" "\x7b" ⟨false, none, []⟩).2 =
      [Step.append (parseErrorRecord "2026-10-12T00:00:00Z" "\x7b")] ∧
    Step.archiveCheck ∉ (observeMain "2026-10-12T00:00:00Z" "\x7b" ⟨false, none, []⟩).2 := by
  refine ⟨rfl, ?_⟩
  rw [show (observeMain "2026-10-12T00:00:00Z" "\x7b" ⟨false, none, []⟩).2 =
    [Step.append (parseErrorRecord "2026-10-12T00:00:00Z" "\x7b")] from rfl]
  simp

/-- C1 amended: within one invocation that is not disabled and has
non-blank stdin, a successfully parsed event yields the trace "rotation
pre-check, then append" — the check strictly precedes the append it
guards — while a parse failure appends its `parse_error` record without
any rotation pre-check. -/
theorem obs_rotation_order_amended (ts stdin : String) (st : ObsFS)
    (hd : st.disabled = false) (hs : pyStrip stdin ≠ "") :
    (∀ event tool inputStr outputStr session,
      parse_hook_input stdin = .ok event tool inputStr outputStr session →
      (observeMain ts stdin st).2 =
        [Step.archiveCheck,
          Step.append (buildObservation ts event tool inputStr outputStr session)]) ∧
    (∀ msg, parse_hook_input stdin = .err msg →
      (observeMain ts stdin st).2 = [Step.append (parseErrorRecord ts stdin)]) := by
  unfold observeMain
  simp only [hd, Bool.false_eq_true, if_false, hs, if_neg hs]
  constructor
  · intro event tool inputStr outputStr session hp
    rw [hp]
  · intro msg hp
    rw [hp]

set_option maxRecDepth 100000 in
/-- C1 witness: a well-formed `PreToolUse` event over an absent log — the
trace is exactly the rotation pre-check followed by the append of the
built observation. -/
theorem obs_rotation_order_witness :
    pyStrip "\x7b\"hook_type\": \"PreToolUse\", \"tool_name\": \"Edit\"\x7d" ≠ "" ∧
    parse_hook_input "\x7b\"hook_type\": \"PreToolUse\", \"tool_name\": \"Edit\"\x7d" =
      .ok "tool_start" (.str "Edit") (some "\x7b\x7d") none (.str "unknown") ∧
    (observeMain "2026-10-12T00:00:00Z"
        "\x7b\"hook_type\": \"PreToolUse\", \"tool_name\": \"Edit\"\x7d"
        ⟨false, none, []⟩).2 =
      [Step.archiveCheck,
        Step.append (buildObservation "2026-10-12T00:00:00Z" "tool_start"
          (.str "Edit") (some "\x7b\x7d") none (.str "unknown"))] := by
  refine ⟨by decide, rfl, ?_⟩
  exact (obs_rotation_order_amended "2026-10-12T00:00:00Z"
      "\x7b\"hook_type\": \"PreToolUse\", \"tool_name\": \"Edit\"\x7d"
      ⟨false, none, []⟩ rfl (by decide)).1
    "tool_start" (.str "Edit") (some "\x7b\x7d") none (.str "unknown") rfl


/-- Key membership after appending one member. -/
theorem jobjHasKey_snoc : ∀ (o : JObj) (k : String) (v : JVal) (key : String),
    jobjHasKey (JObj.snoc o k v) key = (jobjHasKey o key || decide (k = key))
  | .nil, k, v, key => by simp [JObj.snoc, jobjHasKey]
  | .cons k0 v0 rest, k, v, key => by
    simp [JObj.snoc, jobjHasKey, jobjHasKey_snoc rest k v key, Bool.or_assoc]

/-- C9: for every successfully parsed hook event, the built observation
record carries the `input` key exactly when the event is `tool_start` and
the truncated serialization of the tool input is non-empty, and the
`output` key exactly when the event is `tool_complete` and the truncated
serialization of the tool output is non-empty. -/
theorem observation_optional_fields (s ts : String) (kvs : JObj)
    (hload : jsonLoads s = some (.obj kvs)) :
    ∀ event tool inputStr outputStr session,
      parse_hook_input s = .ok event tool inputStr outputStr session →
      ((jobjHasKey (buildObservation ts event tool inputStr outputStr session)
          "input" = true ↔
        (event = "tool_start" ∧
          serializeTrunc
            (dictGet kvs "tool_input" (dictGet kvs "input" (.obj .nil))) ≠ "")) ∧
      (jobjHasKey (buildObservation ts event tool inputStr outputStr session)
          "output" = true ↔
        (event = "tool_complete" ∧
          serializeTrunc
            (dictGet kvs "tool_output" (dictGet kvs "output" (.str ""))) ≠ ""))) := by
  intro event tool inputStr outputStr session hp
  unfold parse_hook_input at hp
  rw [hload] at hp
  simp only at hp
  split at hp
  · simp at hp
  · injection hp with h1 h2 h3 h4 h5
    subst h1
    subst h2
    subst h3
    subst h4
    subst h5
    rename_i isPre heq
    cases isPre with
    | true =>
      by_cases hstr :
          serializeTrunc (dictGet kvs "tool_input" (dictGet kvs "input" (.obj .nil))) = ""
      · simp [buildObservation, hstr, jobjHasKey]
      · simp [buildObservation, hstr, jobjHasKey, jobjHasKey_snoc]
    | false =>
      by_cases hstr :
          serializeTrunc (dictGet kvs "tool_output" (dictGet kvs "output" (.str ""))) = ""
      · simp [buildObservation, hstr, jobjHasKey]
      · simp [buildObservation, hstr, jobjHasKey, jobjHasKey_snoc]

set_option maxRecDepth 100000 in
/-- C9 witness: a `tool_start` event whose `tool_input` serializes to the
empty string — the record carries no `input` key, and the stated
equivalence holds at this input. -/
theorem observation_optional_fields_witness :
    jsonLoads "\x7b\"hook_type\": \"PreToolUse\", \"tool_input\": \"\"\x7d" =
      some (.obj (.cons "hook_type" (.str "PreToolUse")
        (.cons "tool_input" (.str "") .nil))) ∧
    parse_hook_input "\x7b\"hook_type\": \"PreToolUse\", \"tool_input\": \"\"\x7d" =
      .ok "tool_start" (.str "unknown") (some "") none (.str "unknown") ∧
    (jobjHasKey (buildObservation "2026-10-12T00:00:00Z" "tool_start"
        (.str "unknown") (some "") none (.str "unknown")) "input" = true ↔
      ("tool_start" = "tool_start" ∧
        serializeTrunc
          (dictGet
            (.cons "hook_type" (.str "PreToolUse")
              (.cons "tool_input" (.str "") .nil))
            "tool_input"
            (dictGet
              (.cons "hook_type" (.str "PreToolUse")
                (.cons "tool_input" (.str "") .nil))
              "input" (.obj .nil))) ≠ "")) ∧
    jobjHasKey (buildObservation "2026-10-12T00:00:00Z" "tool_start"
      (.str "unknown") (some "") none (.str "unknown")) "input" = false :=
  ⟨rfl, rfl,
    ((observation_optional_fields
        "\x7b\"hook_type\": \"PreToolUse\", \"tool_input\": \"\"\x7d"
        "2026-10-12T00:00:00Z"
        (.cons "hook_type" (.str "PreToolUse") (.cons "tool_input" (.str "") .nil))
        rfl) "tool_start" (.str "unknown") (some "") none (.str "unknown") rfl).1,
    rfl⟩

end S2P
